import Mathlib

/-!
Shallow embedding of the command-and-coordination layer of the
NasaRmc2019 excavation robot.

Sources:
 - src/src/tfr_executive/src/teleop_action_server.cpp
   (TeleopExecutive::processCommand and its polling loops)
 - src/src/tfr_localization/src/localization_action_server.cpp
   (Localizer::localize)
 - src/src/tfr_navigation/include/tfr_navigation/navigation_goal_manager.h
   (NavigationGoalManager, whose method body is not in the repository
    snapshot and is therefore modelled from the spec)

Doubles are embedded as rationals, enumerated message codes as `Nat`,
blocking remote calls and poll points as per-iteration environment
records; a loop over such an environment trace returns the list of
published/side-effecting events together with `some` terminal outcome,
or `none` when the trace is exhausted with the loop still running.
-/

namespace Tfr

/-- Terminal outcome of one dispatch cycle of a simple action server:
`setSucceeded`, `setPreempted` or `setAborted`. -/
inductive Outcome
  | succeeded
  | preempted
  | aborted
  deriving DecidableEq, Repr

/-- The drive velocity profile of the teleop executive
(`TeleopExecutive::DriveVelocity`): max linear and max angular speed. -/
structure DriveVelocity where
  linear : ℚ
  angular : ℚ
  deriving DecidableEq, Repr

/-- Embedding of `geometry_msgs::Twist`; value-initialized to all zeros as
`geometry_msgs::Twist move_cmd{}` is in the source. -/
structure Twist where
  linear_x : ℚ := 0
  linear_y : ℚ := 0
  linear_z : ℚ := 0
  angular_x : ℚ := 0
  angular_y : ℚ := 0
  angular_z : ℚ := 0
  deriving DecidableEq, Repr

/-- The teleop command codes handled by the `switch` in
`TeleopExecutive::processCommand`; `UNRECOGNIZED` stands for every code
that falls into the `default` branch. -/
inductive TeleopCode
  | STOP_DRIVEBASE
  | STOP_TURNTABLE
  | FORWARD
  | BACKWARD
  | LEFT
  | RIGHT
  | CLOCKWISE
  | COUNTERCLOCKWISE
  | DIG
  | DUMP
  | RESET_DUMPING
  | RESET_STARTING
  | UNRECOGNIZED
  deriving DecidableEq, Repr

/-- Observable side effects of one teleop dispatch cycle:
publishes on `cmd_vel` (`drivebase_publisher`), publishes on the bin
position command topic (`bin_publisher`), sending the digging goal
(`digging_client.sendGoal`) and cancelling it
(`digging_client.cancelAllGoals`). -/
inductive Event
  | publishDrive (t : Twist)
  | publishBin (angle : ℚ)
  | sendDigGoal (duration : ℚ)
  | cancelAllGoals
  deriving DecidableEq, Repr

/-- Modelled from the spec: the numeric values of
`tfr_utilities::JointAngles::BIN_MAX` / `BIN_MIN` live in
`tfr_utilities/control_code.h`, which is not part of the repository
snapshot; the spec only calls them the target angles of the bin position
command. No claim depends on the chosen values. -/
def BIN_MAX : ℚ := 1

/-- Modelled from the spec: lower bin target angle, see `BIN_MAX`. -/
def BIN_MIN : ℚ := 0

/-- Modelled from the spec: the numeric value of
`tfr_utilities::BinCode::RAISED` (header not in the snapshot); the Dump
loop compares the polled `uint8` code against it. No claim depends on
the chosen value. -/
def RAISED : Nat := 1

/-- Modelled from the spec: the numeric value of
`tfr_utilities::BinCode::LOWERED`, see `RAISED`. -/
def LOWERED : Nat := 0

/-- Environment of one iteration of the DIG wait loop: whether
`digging_client.getState().isDone()`, whether
`server.isPreemptRequested()`, and whether `ros::ok()` at this poll
point. -/
structure DigPoll where
  isDone : Bool
  preemptRequested : Bool
  rosOk : Bool
  deriving DecidableEq, Repr

/-- The DIG wait loop of `processCommand`:
`while (!digging_client.getState().isDone())` — inside the body, when
`server.isPreemptRequested() || !ros::ok()` it calls
`digging_client.cancelAllGoals()` and `server.setPreempted()`; when the
task is done the loop exits and the cycle falls through to
`setSucceeded`. `none` means the poll trace ran out with the loop still
waiting. -/
def digPollLoop : List DigPoll → List Event × Option Outcome
  | [] => ([], none)
  | p :: rest =>
    if p.isDone then ([], some Outcome.succeeded)
    else if p.preemptRequested || !p.rosOk then
      ([Event.cancelAllGoals], some Outcome.preempted)
    else digPollLoop rest

/-- The DIG case of `processCommand`. The source calls
`ros::service::call("digging_time", digging_time)` and ignores the
returned success flag: `durationCall = none` models a failed call, in
which case `digging_time.response.duration` keeps its value-initialized
zero. The digging goal is sent unconditionally, then the wait loop
runs. -/
def digCycle (durationCall : Option ℚ) (polls : List DigPoll) :
    List Event × Option Outcome :=
  let w := digPollLoop polls
  (Event.sendDigGoal (durationCall.getD 0) :: w.1, w.2)

/-- Environment of one iteration of the DUMP / RESET_DUMPING polling
loop: preemption flag and `ros::ok()` read by the `while` condition, and
the result of `ros::service::call("bin_state", query)` — `some c` when
the call succeeds and writes code `c` into the response, `none` when the
call fails and leaves `query.response.code` unchanged. -/
structure BinPoll where
  preemptRequested : Bool
  rosOk : Bool
  binState : Option Nat
  deriving DecidableEq, Repr

/-- The DUMP / RESET_DUMPING polling loop of `processCommand`,
parametric in the target `BinCode` and the published bin command angle.
`prevCode` is the current value of `query.response.code` (the `CodeSrv`
is declared once outside the loop, so a failed call leaves the previous
— initially value-initialized zero — code in place, and the success
flag of the call is ignored). Exits: while-condition failure followed by
the post-loop `isPreemptRequested` check, or `break` on code match
followed by the same check. -/
def binPollLoop (target : Nat) (angle : ℚ) (prevCode : Nat) :
    List BinPoll → List Event × Option Outcome
  | [] => ([], none)
  | p :: rest =>
    if p.preemptRequested || !p.rosOk then
      ([], some (if p.preemptRequested then Outcome.preempted else Outcome.succeeded))
    else
      let code := p.binState.getD prevCode
      if code = target then ([], some Outcome.succeeded)
      else
        let w := binPollLoop target angle code rest
        (Event.publishBin angle :: w.1, w.2)

/-- The DUMP case: publish the (all-zero) `move_cmd` stop message, then
poll `bin_state` against `BinCode::RAISED`, publishing `BIN_MAX` while
not yet reached. -/
def dumpCycle (polls : List BinPoll) : List Event × Option Outcome :=
  let w := binPollLoop RAISED BIN_MAX 0 polls
  (Event.publishDrive {} :: w.1, w.2)

/-- The RESET_DUMPING case: publish the (all-zero) `move_cmd` stop
message, then poll `bin_state` against `BinCode::LOWERED`, publishing
`BIN_MIN` while not yet reached. -/
def resetDumpingCycle (polls : List BinPoll) : List Event × Option Outcome :=
  let w := binPollLoop LOWERED BIN_MIN 0 polls
  (Event.publishDrive {} :: w.1, w.2)

/-- Per-cycle environment of `processCommand`: the result of the
`digging_time` service call, the DIG wait-loop poll trace and the
DUMP / RESET_DUMPING poll trace. -/
structure TeleopEnv where
  diggingTime : Option ℚ
  digPolls : List DigPoll
  binPolls : List BinPoll
  deriving Repr

/-- Embedding of `TeleopExecutive::processCommand`: dispatch on the
command code, returning the published events and the terminal outcome
of the cycle (`none` only when a polling loop outran its trace). The
immediate drive cases mutate the value-initialized `move_cmd` exactly as
the source does and publish it once. -/
def processCommand (drive_stats : DriveVelocity) (env : TeleopEnv) :
    TeleopCode → List Event × Option Outcome
  | TeleopCode.STOP_DRIVEBASE =>
      ([Event.publishDrive {}], some Outcome.succeeded)
  | TeleopCode.STOP_TURNTABLE =>
      ([], some Outcome.succeeded)
  | TeleopCode.FORWARD =>
      ([Event.publishDrive { linear_x := drive_stats.linear }], some Outcome.succeeded)
  | TeleopCode.BACKWARD =>
      ([Event.publishDrive { linear_x := -drive_stats.linear }], some Outcome.succeeded)
  | TeleopCode.LEFT =>
      ([Event.publishDrive { angular_z := drive_stats.angular }], some Outcome.succeeded)
  | TeleopCode.RIGHT =>
      ([Event.publishDrive { angular_z := -drive_stats.angular }], some Outcome.succeeded)
  | TeleopCode.CLOCKWISE =>
      ([Event.publishDrive { angular_z := drive_stats.angular }], some Outcome.succeeded)
  | TeleopCode.COUNTERCLOCKWISE =>
      ([Event.publishDrive { angular_z := -drive_stats.angular }], some Outcome.succeeded)
  | TeleopCode.DIG => digCycle env.diggingTime env.digPolls
  | TeleopCode.DUMP => dumpCycle env.binPolls
  | TeleopCode.RESET_DUMPING => resetDumpingCycle env.binPolls
  | TeleopCode.RESET_STARTING =>
      ([Event.publishDrive {}], some Outcome.succeeded)
  | TeleopCode.UNRECOGNIZED =>
      ([], some Outcome.aborted)

/-- Embedding of `geometry_msgs::Pose`: position and orientation
quaternion components, as rationals. -/
structure Pose where
  position_x : ℚ := 0
  position_y : ℚ := 0
  position_z : ℚ := 0
  orientation_x : ℚ := 0
  orientation_y : ℚ := 0
  orientation_z : ℚ := 0
  orientation_w : ℚ := 0
  deriving DecidableEq, Repr

/-- Embedding of `geometry_msgs::PoseStamped`: a pose with a frame id
and a time stamp. -/
structure PoseStamped where
  frame_id : String
  stamp : ℚ
  pose : Pose
  deriving DecidableEq, Repr

/-- Environment of one iteration of `Localizer::localize`: the
preemption flag and `ros::ok()` read at the top of the loop, whether
`image_client.call(request)` succeeds, the aruco action result (`none`
when `aruco.waitForResult()` fails, otherwise `number_found` and
`relative_pose`), the result of
`tf_manipulator.transform_pose(..., "base_footprint")` (`none` on
transform failure, `some` the transformed pose on success — the
transform is an external collaborator), the value of `ros::Time::now()`
at the stamping point, and whether
`ros::service::call("localize_bin", ...)` succeeds. -/
structure LocIter where
  preemptRequested : Bool
  rosOk : Bool
  imageCall : Bool
  arucoResult : Option (Nat × Pose)
  transformResult : Option Pose
  now : ℚ
  commitOk : Bool
  deriving DecidableEq, Repr

/-- Observable side effects of the localization loop: sending the image
to the aruco marker-detection action server (`aruco.sendGoal`) and the
`localize_bin` commit call carrying the stamped pose. -/
inductive LocEvent
  | sendArucoGoal
  | commitCall (p : PoseStamped)
  deriving DecidableEq, Repr

/-- Whether the loop iteration exits (with a terminal outcome) or falls
through to the next iteration (`continue`). -/
inductive LocStep
  | exit (o : Outcome)
  | retry
  deriving DecidableEq, Repr

/-- The fixed coordinate correction and stamping applied before the
commit call (source lines `bin_pose.pose.position.y *= -1;
bin_pose.pose.position.z *= -1; bin_pose.header.frame_id = "odom";
bin_pose.header.stamp = ros::Time::now();`). -/
def correctedBinPose (transformed : Pose) (now : ℚ) : PoseStamped :=
  { frame_id := "odom"
    stamp := now
    pose := { transformed with
                position_y := -transformed.position_y
                position_z := -transformed.position_z } }

/-- One iteration of the `while (true)` body of `Localizer::localize`:
preempt/ok check, image grab, aruco goal, marker-count check, transform,
correction and commit, mirroring each `continue` / `break` of the
source. -/
def localizeIter (i : LocIter) : List LocEvent × LocStep :=
  if i.preemptRequested || !i.rosOk then ([], LocStep.exit Outcome.preempted)
  else if !i.imageCall then ([], LocStep.retry)
  else
    match i.arucoResult with
    | none => ([LocEvent.sendArucoGoal], LocStep.retry)
    | some (n, _) =>
      if n = 0 then ([LocEvent.sendArucoGoal], LocStep.retry)
      else
        match i.transformResult with
        | none => ([LocEvent.sendArucoGoal], LocStep.retry)
        | some transformed =>
          let bin_pose := correctedBinPose transformed i.now
          if i.commitOk then
            ([LocEvent.sendArucoGoal, LocEvent.commitCall bin_pose],
             LocStep.exit Outcome.succeeded)
          else
            ([LocEvent.sendArucoGoal, LocEvent.commitCall bin_pose],
             LocStep.retry)

/-- Embedding of `Localizer::localize`: iterate `localizeIter` over the
environment trace, accumulating events, until an iteration exits;
`none` when the trace is exhausted with the loop still retrying. -/
def localize : List LocIter → List LocEvent × Option Outcome
  | [] => ([], none)
  | i :: rest =>
    match localizeIter i with
    | (evs, LocStep.exit o) => (evs, some o)
    | (evs, LocStep.retry) =>
      let w := localize rest
      (evs ++ w.1, w.2)

/-- Boolean discriminator for commit events, used to count the
`localize_bin` calls a run issues. -/
def isCommitCall : LocEvent → Bool
  | LocEvent.commitCall _ => true
  | _ => false

/-- Guard combination of one source iteration that retries without ever
reaching the commit call: not preempted, ros ok, and the iteration falls
into one of the `continue` branches before the commit (failed image
call, unreachable aruco, zero markers, or failed transform). -/
def retryNoCommit (q : LocIter) : Prop :=
  q.preemptRequested = false ∧ q.rosOk = true ∧
    (q.imageCall = false ∨ q.arucoResult = none ∨
      (∃ pp, q.arucoResult = some (0, pp)) ∨ q.transformResult = none)

/-- Iteration environment in which the aruco result reports zero
markers (the image call and aruco wait both succeed). -/
def zeroMarkerIter (q : LocIter) : Prop :=
  q.preemptRequested = false ∧ q.rosOk = true ∧ q.imageCall = true ∧
    ∃ pp, q.arucoResult = some (0, pp)

/-- Iteration environment in which markers are found, the transform
succeeds and the commit call succeeds. -/
def successIter (q : LocIter) : Prop :=
  q.preemptRequested = false ∧ q.rosOk = true ∧ q.imageCall = true ∧
    (∃ n pp, q.arucoResult = some (n, pp) ∧ n ≠ 0) ∧
    (∃ t, q.transformResult = some t) ∧ q.commitOk = true

/-- The geometry constraints of `NavigationGoalManager`
(`NavigationGoalManager::GeometryConstraints`): safe mining distance and
finish line distance, immutable after construction. -/
structure GeometryConstraints where
  safe_mining_distance : ℚ
  finish_line : ℚ
  deriving DecidableEq, Repr

/-- Modelled from the spec: the symbolic destination codes of
`tfr_utilities::LocationCode` (header not in the repository snapshot);
the spec data model enumerates Mining-Site, Bin, Finish-Line and Start,
and requires an unsupported code to be signalled as an explicit error,
modelled by `UNSET`. -/
inductive LocationCode
  | MINING_SITE
  | BIN
  | FINISH_LINE
  | START
  | UNSET
  deriving DecidableEq, Repr

/-- A navigation goal: a pose in a named reference frame. -/
structure NavGoal where
  frame_id : String
  pose : Pose
  deriving DecidableEq, Repr

/-- Modelled from the spec: the body of
`NavigationGoalManager::initialize_goal` is not under `src/` (only its
declaration in `navigation_goal_manager.h`). Per spec §4.3 it is a pure,
stateless function of the Location Code, the Geometry Constraints and
the active reference frame name, computing distances along the reference
axis from the constraint values, with an unsupported code signalled as
an explicit error and never a default pose. -/
def initialize_goal (code : LocationCode) (constraints : GeometryConstraints)
    (reference_frame : String) : Except String NavGoal :=
  match code with
  | LocationCode.MINING_SITE =>
      Except.ok { frame_id := reference_frame
                  pose := { position_x := constraints.safe_mining_distance } }
  | LocationCode.BIN =>
      Except.ok { frame_id := reference_frame, pose := {} }
  | LocationCode.FINISH_LINE =>
      Except.ok { frame_id := reference_frame
                  pose := { position_x := constraints.finish_line } }
  | LocationCode.START =>
      Except.ok { frame_id := reference_frame, pose := {} }
  | LocationCode.UNSET =>
      Except.error "unsupported location code"

/-- Helper: the bin polling loop reaches the matching poll through any
prefix of live, non-preempted, non-matching successful polls, publishing
one bin command per prefix element and none afterwards, and exits
Succeeded. -/
theorem binPollLoop_reaches_match (target : Nat) (angle : ℚ) :
    ∀ (pre : List BinPoll) (prevCode : Nat) (p : BinPoll) (post : List BinPoll),
      (∀ q ∈ pre, q.rosOk = true ∧ q.preemptRequested = false ∧
        ∃ c, q.binState = some c ∧ c ≠ target) →
      p.rosOk = true → p.preemptRequested = false → p.binState = some target →
      binPollLoop target angle prevCode (pre ++ p :: post)
        = (pre.map (fun _ => Event.publishBin angle), some Outcome.succeeded)
  | [], prevCode, p, post, hpre, hok, hp, hs => by
      simp [binPollLoop, hok, hp, hs]
  | q :: pre, prevCode, p, post, hpre, hok, hp, hs => by
      obtain ⟨hq1, hq2, c, hc, hcne⟩ := hpre q (by simp)
      have ih := binPollLoop_reaches_match target angle pre c p post
        (fun r hr => hpre r (by simp [hr])) hok hp hs
      simp [binPollLoop, hq1, hq2, hc, hcne, ih]

/-- Helper: if the bin polling loop exits Succeeded and every poll in
the trace is live and returns a code, then some non-preempted poll in
the trace returned the target code. -/
theorem binPollLoop_succeeded_has_match (target : Nat) (angle : ℚ) :
    ∀ (polls : List BinPoll) (prevCode : Nat),
      (∀ q ∈ polls, q.rosOk = true ∧ q.binState ≠ none) →
      (binPollLoop target angle prevCode polls).2 = some Outcome.succeeded →
      ∃ p ∈ polls, p.preemptRequested = false ∧ p.binState = some target
  | [], prevCode, _, h => by simp [binPollLoop] at h
  | p :: rest, prevCode, hall, h => by
      obtain ⟨hok, hsome⟩ := hall p (by simp)
      obtain ⟨c, hc⟩ : ∃ c, p.binState = some c := by
        cases hbs : p.binState with
        | none => exact absurd hbs hsome
        | some c => exact ⟨c, rfl⟩
      by_cases hpr : p.preemptRequested = true
      · simp [binPollLoop, hpr] at h
      · replace hpr : p.preemptRequested = false := by
          cases hx : p.preemptRequested
          · rfl
          · exact absurd hx hpr
        by_cases hct : c = target
        · exact ⟨p, by simp, hpr, hct ▸ hc⟩
        · have hrec : (binPollLoop target angle c rest).2 = some Outcome.succeeded := by
            simpa [binPollLoop, hpr, hok, hc, hct] using h
          obtain ⟨p0, hmem, hp0, hs0⟩ :=
            binPollLoop_succeeded_has_match target angle rest c
              (fun r hr => hall r (by simp [hr])) hrec
          exact ⟨p0, by simp [hmem], hp0, hs0⟩

/-- Helper: the DIG wait loop, reaching a not-done poll point where
preemption is requested through any prefix of not-done, non-preempted,
live polls, cancels the digging goals and exits Preempted. -/
theorem digPollLoop_preempt :
    ∀ (pre : List DigPoll) (p : DigPoll) (post : List DigPoll),
      (∀ q ∈ pre, q.isDone = false ∧ q.preemptRequested = false ∧ q.rosOk = true) →
      p.isDone = false → p.preemptRequested = true →
      digPollLoop (pre ++ p :: post)
        = ([Event.cancelAllGoals], some Outcome.preempted)
  | [], p, post, _, hd, hp => by simp [digPollLoop, hd, hp]
  | q :: pre, p, post, hpre, hd, hp => by
      obtain ⟨hq1, hq2, hq3⟩ := hpre q (by simp)
      have ih := digPollLoop_preempt pre p post
        (fun r hr => hpre r (by simp [hr])) hd hp
      simp [digPollLoop, hq1, hq2, hq3, ih]

/-- Helper: unfolding `localize` on a cons whose iteration exits. -/
theorem localize_cons_exit (i : LocIter) (rest : List LocIter) (o : Outcome)
    (h : (localizeIter i).2 = LocStep.exit o) :
    localize (i :: rest) = ((localizeIter i).1, some o) := by
  rcases hI : localizeIter i with ⟨evs, st⟩
  rw [hI] at h
  simp at h
  subst h
  simp [localize, hI]

/-- Helper: unfolding `localize` on a cons whose iteration retries. -/
theorem localize_cons_retry (i : LocIter) (rest : List LocIter)
    (h : (localizeIter i).2 = LocStep.retry) :
    localize (i :: rest)
      = ((localizeIter i).1 ++ (localize rest).1, (localize rest).2) := by
  rcases hI : localizeIter i with ⟨evs, st⟩
  rw [hI] at h
  simp at h
  subst h
  simp [localize, hI]

/-- Helper: an iteration that observes a preemption request exits
Preempted with no events. -/
theorem localizeIter_preempt (i : LocIter) (h : i.preemptRequested = true) :
    localizeIter i = ([], LocStep.exit Outcome.preempted) := by
  simp [localizeIter, h]

/-- Helper: a zero-marker iteration sends the aruco goal and retries. -/
theorem zeroMarkerIter_eval (q : LocIter) (h : zeroMarkerIter q) :
    localizeIter q = ([LocEvent.sendArucoGoal], LocStep.retry) := by
  obtain ⟨h1, h2, h3, pp, h4⟩ := h
  simp [localizeIter, h1, h2, h3, h4]

/-- Helper: a detection-transform-commit success iteration sends the
aruco goal, issues the commit with the corrected pose, and exits
Succeeded. -/
theorem successIter_eval (q : LocIter) (h : successIter q) :
    ∃ t, q.transformResult = some t ∧
      localizeIter q
        = ([LocEvent.sendArucoGoal, LocEvent.commitCall (correctedBinPose t q.now)],
           LocStep.exit Outcome.succeeded) := by
  obtain ⟨h1, h2, h3, ⟨n, pp, h4, hn⟩, ⟨t, h5⟩, h6⟩ := h
  exact ⟨t, h5, by simp [localizeIter, h1, h2, h3, h4, hn, h5, h6]⟩

/-- Helper: an iteration satisfying `retryNoCommit` retries with no
commit event (it emits nothing or only the aruco goal). -/
theorem retryNoCommit_eval (q : LocIter) (h : retryNoCommit q) :
    localizeIter q = ([], LocStep.retry)
    ∨ localizeIter q = ([LocEvent.sendArucoGoal], LocStep.retry) := by
  obtain ⟨h1, h2, hcase⟩ := h
  rcases hcase with himg | har | ⟨pp, har⟩ | htr
  · exact Or.inl (by simp [localizeIter, h1, h2, himg])
  · cases hic : q.imageCall
    · exact Or.inl (by simp [localizeIter, h1, h2, hic])
    · exact Or.inr (by simp [localizeIter, h1, h2, hic, har])
  · cases hic : q.imageCall
    · exact Or.inl (by simp [localizeIter, h1, h2, hic])
    · exact Or.inr (by simp [localizeIter, h1, h2, hic, har])
  · cases hic : q.imageCall
    · exact Or.inl (by simp [localizeIter, h1, h2, hic])
    · rcases har : q.arucoResult with _ | ⟨n, pp⟩
      · exact Or.inr (by simp [localizeIter, h1, h2, hic, har])
      · by_cases hn : n = 0
        · subst hn
          exact Or.inr (by simp [localizeIter, h1, h2, hic, har])
        · exact Or.inr (by simp [localizeIter, h1, h2, hic, har, hn, htr])

/-- Helper: any transient failure — failed image call, unreachable
aruco, zero markers, failed transform, or failed commit — makes the
iteration retry rather than exit. -/
theorem localizeIter_retry_of_transient (i : LocIter)
    (h1 : i.preemptRequested = false) (h2 : i.rosOk = true)
    (h : i.imageCall = false ∨ i.arucoResult = none ∨
      (∃ pp, i.arucoResult = some (0, pp)) ∨ i.transformResult = none ∨
      i.commitOk = false) :
    (localizeIter i).2 = LocStep.retry := by
  rcases h with himg | har | ⟨pp, har⟩ | htr | hco
  · simp [localizeIter, h1, h2, himg]
  · cases hic : i.imageCall <;> simp [localizeIter, h1, h2, hic, har]
  · cases hic : i.imageCall <;> simp [localizeIter, h1, h2, hic, har]
  · cases hic : i.imageCall
    · simp [localizeIter, h1, h2, hic]
    · rcases har : i.arucoResult with _ | ⟨n, pp⟩
      · simp [localizeIter, h1, h2, hic, har]
      · by_cases hn : n = 0
        · subst hn
          simp [localizeIter, h1, h2, hic, har]
        · cases hco : i.commitOk <;>
            simp [localizeIter, h1, h2, hic, har, hn, htr, hco]
  · cases hic : i.imageCall
    · simp [localizeIter, h1, h2, hic]
    · rcases har : i.arucoResult with _ | ⟨n, pp⟩
      · simp [localizeIter, h1, h2, hic, har]
      · by_cases hn : n = 0
        · subst hn
          simp [localizeIter, h1, h2, hic, har]
        · rcases htr : i.transformResult with _ | t <;>
            simp [localizeIter, h1, h2, hic, har, hn, htr, hco]

/-- Helper: if an iteration exits, the outcome is Succeeded or
Preempted — the loop body of `Localizer::localize` has no aborted
branch. -/
theorem localizeIter_exit_outcome (i : LocIter) (o : Outcome)
    (h : (localizeIter i).2 = LocStep.exit o) :
    o = Outcome.succeeded ∨ o = Outcome.preempted := by
  by_cases hpre : (i.preemptRequested || !i.rosOk) = true
  · simp [localizeIter, hpre] at h
    exact Or.inr h.symm
  · have hpre2 : (i.preemptRequested || !i.rosOk) = false := by
      cases hx : (i.preemptRequested || !i.rosOk)
      · rfl
      · exact absurd hx hpre
    cases hic : i.imageCall
    · simp [localizeIter, hpre2, hic] at h
    · rcases har : i.arucoResult with _ | ⟨n, pp⟩
      · simp [localizeIter, hpre2, hic, har] at h
      · by_cases hn : n = 0
        · subst hn
          simp [localizeIter, hpre2, hic, har] at h
        · rcases htr : i.transformResult with _ | t
          · simp [localizeIter, hpre2, hic, har, hn, htr] at h
          · cases hco : i.commitOk
            · simp [localizeIter, hpre2, hic, har, hn, htr, hco] at h
            · simp [localizeIter, hpre2, hic, har, hn, htr, hco] at h
              exact Or.inl h.symm

/-- Helper: a commit event in an iteration pins down its environment:
markers were found, the transform succeeded, and the committed pose is
the corrected, stamped transform result. -/
theorem commitCall_mem_localizeIter (i : LocIter) (sp : PoseStamped)
    (hmem : LocEvent.commitCall sp ∈ (localizeIter i).1) :
    ∃ n pp t, i.arucoResult = some (n, pp) ∧ n ≠ 0 ∧
      i.transformResult = some t ∧ sp = correctedBinPose t i.now := by
  by_cases hpre : (i.preemptRequested || !i.rosOk) = true
  · simp [localizeIter, hpre] at hmem
  · have hpre2 : (i.preemptRequested || !i.rosOk) = false := by
      cases hx : (i.preemptRequested || !i.rosOk)
      · rfl
      · exact absurd hx hpre
    cases hic : i.imageCall
    · simp [localizeIter, hpre2, hic] at hmem
    · rcases har : i.arucoResult with _ | ⟨n, pp⟩
      · simp [localizeIter, hpre2, hic, har] at hmem
      · by_cases hn : n = 0
        · subst hn
          simp [localizeIter, hpre2, hic, har] at hmem
        · rcases htr : i.transformResult with _ | t
          · simp [localizeIter, hpre2, hic, har, hn, htr] at hmem
          · cases hco : i.commitOk <;>
              · simp [localizeIter, hpre2, hic, har, hn, htr, hco] at hmem
                exact ⟨n, pp, t, rfl, hn, rfl, hmem⟩

/-- Claim C1 (code bug evaluation): when the `digging_time` service call
fails, `processCommand` for DIG nevertheless sends the digging goal —
with the value-initialized zero duration — and the cycle can end
Succeeded, never reaching Aborted. -/
theorem dig_duration_failure_sends_goal_and_succeeds :
    processCommand ⟨1, 1⟩ ⟨none, [⟨true, false, true⟩], []⟩ TeleopCode.DIG
      = ([Event.sendDigGoal 0], some Outcome.succeeded) := by rfl

/-- Claim C2: in a live Dump (target Raised) or Reset-Dumping (target
Lowered) cycle in which every bin-state poll call returns a code, the
polling loop terminates in Succeeded exactly when a poll returns the
target code, and no bin-position command is published at or after the
matching poll (one command per preceding non-matching poll, none from
the matching poll on). -/
theorem dump_reset_succeed_iff_target_polled :
    (∀ (pre : List BinPoll) (p : BinPoll) (post : List BinPoll),
       (∀ q ∈ pre, q.rosOk = true ∧ q.preemptRequested = false ∧
         ∃ c, q.binState = some c ∧ c ≠ RAISED) →
       p.rosOk = true → p.preemptRequested = false → p.binState = some RAISED →
       dumpCycle (pre ++ p :: post)
         = (Event.publishDrive {} :: pre.map (fun _ => Event.publishBin BIN_MAX),
            some Outcome.succeeded))
  ∧ (∀ polls : List BinPoll,
       (∀ q ∈ polls, q.rosOk = true ∧ q.binState ≠ none) →
       (dumpCycle polls).2 = some Outcome.succeeded →
       ∃ p ∈ polls, p.preemptRequested = false ∧ p.binState = some RAISED)
  ∧ (∀ (pre : List BinPoll) (p : BinPoll) (post : List BinPoll),
       (∀ q ∈ pre, q.rosOk = true ∧ q.preemptRequested = false ∧
         ∃ c, q.binState = some c ∧ c ≠ LOWERED) →
       p.rosOk = true → p.preemptRequested = false → p.binState = some LOWERED →
       resetDumpingCycle (pre ++ p :: post)
         = (Event.publishDrive {} :: pre.map (fun _ => Event.publishBin BIN_MIN),
            some Outcome.succeeded))
  ∧ (∀ polls : List BinPoll,
       (∀ q ∈ polls, q.rosOk = true ∧ q.binState ≠ none) →
       (resetDumpingCycle polls).2 = some Outcome.succeeded →
       ∃ p ∈ polls, p.preemptRequested = false ∧ p.binState = some LOWERED) := by
  refine ⟨?_, ?_, ?_, ?_⟩
  · intro pre p post hpre hok hp hs
    simp [dumpCycle, binPollLoop_reaches_match RAISED BIN_MAX pre 0 p post hpre hok hp hs]
  · intro polls hall h
    exact binPollLoop_succeeded_has_match RAISED BIN_MAX polls 0 hall h
  · intro pre p post hpre hok hp hs
    simp [resetDumpingCycle,
      binPollLoop_reaches_match LOWERED BIN_MIN pre 0 p post hpre hok hp hs]
  · intro polls hall h
    exact binPollLoop_succeeded_has_match LOWERED BIN_MIN polls 0 hall h

/-- Witness for claim C2: a concrete Dump trace whose second poll
returns Raised terminates Succeeded with exactly one bin command,
published before the matching poll. -/
theorem dump_reset_succeed_iff_target_polled_app :
    ((⟨false, true, some 0⟩ : BinPoll).rosOk = true ∧
      (⟨false, true, some 0⟩ : BinPoll).preemptRequested = false ∧
      (⟨false, true, some RAISED⟩ : BinPoll).binState = some RAISED) ∧
    dumpCycle [⟨false, true, some 0⟩, ⟨false, true, some RAISED⟩]
      = (Event.publishDrive {} ::
          ([⟨false, true, some 0⟩] : List BinPoll).map (fun _ => Event.publishBin BIN_MAX),
         some Outcome.succeeded) :=
  ⟨⟨rfl, rfl, rfl⟩,
    dump_reset_succeed_iff_target_polled.1
      [⟨false, true, some 0⟩] ⟨false, true, some RAISED⟩ []
      (by intro q hq
          simp only [List.mem_singleton] at hq
          subst hq
          exact ⟨rfl, rfl, 0, rfl, by simp [RAISED]⟩)
      rfl rfl rfl⟩

/-- Claim C4: if, at any poll point of the DIG wait loop reached before
the subordinate digging task completes, preemption is requested, the
cycle cancels all digging goals and ends Preempted — never Succeeded. -/
theorem dig_preempt_cancels_and_never_succeeds :
    ∀ (durationCall : Option ℚ) (pre : List DigPoll) (p : DigPoll) (post : List DigPoll),
      (∀ q ∈ pre, q.isDone = false ∧ q.preemptRequested = false ∧ q.rosOk = true) →
      p.isDone = false → p.preemptRequested = true →
      digCycle durationCall (pre ++ p :: post)
        = ([Event.sendDigGoal (durationCall.getD 0), Event.cancelAllGoals],
           some Outcome.preempted)
      ∧ (digCycle durationCall (pre ++ p :: post)).2 ≠ some Outcome.succeeded := by
  intro durationCall pre p post hpre hd hp
  have h := digPollLoop_preempt pre p post hpre hd hp
  constructor
  · simp [digCycle, h]
  · simp [digCycle, h]

/-- Witness for claim C4: with a concrete one-poll prefix and then a
preemption request while the task is still running, the DIG cycle
cancels the digging goals and ends Preempted. -/
theorem dig_preempt_cancels_and_never_succeeds_app :
    ((⟨false, false, true⟩ : DigPoll).isDone = false ∧
      (⟨false, true, true⟩ : DigPoll).preemptRequested = true) ∧
    digCycle (some 5) [⟨false, false, true⟩, ⟨false, true, true⟩]
      = ([Event.sendDigGoal ((some (5 : ℚ)).getD 0), Event.cancelAllGoals],
         some Outcome.preempted)
      ∧ (digCycle (some 5) [⟨false, false, true⟩, ⟨false, true, true⟩]).2
          ≠ some Outcome.succeeded :=
  ⟨⟨rfl, rfl⟩,
    dig_preempt_cancels_and_never_succeeds (some 5)
      [⟨false, false, true⟩] ⟨false, true, true⟩ []
      (by intro q hq
          simp only [List.mem_singleton] at hq
          subst hq
          exact ⟨rfl, rfl, rfl⟩)
      rfl rfl⟩

/-- Claim C5 counterexample: with max angular velocity 1, the Clockwise
command publishes angular velocity +1 (the same sign as Left), not the
−1 the claim prescribes for Clockwise. -/
theorem clockwise_publishes_positive_angular :
    processCommand ⟨1, 1⟩ ⟨none, [], []⟩ TeleopCode.CLOCKWISE
      ≠ ([Event.publishDrive { angular_z := -1 }], some Outcome.succeeded)
    ∧ processCommand ⟨1, 1⟩ ⟨none, [], []⟩ TeleopCode.CLOCKWISE
      = ([Event.publishDrive { angular_z := 1 }], some Outcome.succeeded) := by
  constructor
  · decide
  · rfl

/-- Claim C5 as amended: every immediate drive command publishes exactly
one velocity message matching the drive profile — Forward +linear,
Backward −linear, Left and Clockwise +angular, Right and
Counterclockwise −angular, Stop-Drive all zeros — and the cycle ends
Succeeded. -/
theorem immediate_drive_commands_publish_once :
    ∀ (dv : DriveVelocity) (env : TeleopEnv),
      processCommand dv env TeleopCode.STOP_DRIVEBASE
        = ([Event.publishDrive {}], some Outcome.succeeded)
    ∧ processCommand dv env TeleopCode.FORWARD
        = ([Event.publishDrive { linear_x := dv.linear }], some Outcome.succeeded)
    ∧ processCommand dv env TeleopCode.BACKWARD
        = ([Event.publishDrive { linear_x := -dv.linear }], some Outcome.succeeded)
    ∧ processCommand dv env TeleopCode.LEFT
        = ([Event.publishDrive { angular_z := dv.angular }], some Outcome.succeeded)
    ∧ processCommand dv env TeleopCode.RIGHT
        = ([Event.publishDrive { angular_z := -dv.angular }], some Outcome.succeeded)
    ∧ processCommand dv env TeleopCode.CLOCKWISE
        = ([Event.publishDrive { angular_z := dv.angular }], some Outcome.succeeded)
    ∧ processCommand dv env TeleopCode.COUNTERCLOCKWISE
        = ([Event.publishDrive { angular_z := -dv.angular }], some Outcome.succeeded) :=
  fun _ _ => ⟨rfl, rfl, rfl, rfl, rfl, rfl, rfl⟩

/-- Claim C10: the bin polling loop ignores the success flag of the
`bin_state` call — a failed poll behaves exactly like a successful poll
returning the previous response code, and in the Dump / Reset-Dumping
cycles a failed first poll behaves like a poll returning the
default-zero-initialized code. -/
theorem bin_state_call_failure_uses_previous_code :
    (∀ (target : Nat) (angle : ℚ) (prevCode : Nat) (pr ok : Bool) (rest : List BinPoll),
       binPollLoop target angle prevCode (⟨pr, ok, none⟩ :: rest)
         = binPollLoop target angle prevCode (⟨pr, ok, some prevCode⟩ :: rest))
  ∧ (∀ (pr ok : Bool) (rest : List BinPoll),
       dumpCycle (⟨pr, ok, none⟩ :: rest) = dumpCycle (⟨pr, ok, some 0⟩ :: rest)
     ∧ resetDumpingCycle (⟨pr, ok, none⟩ :: rest)
         = resetDumpingCycle (⟨pr, ok, some 0⟩ :: rest)) := by
  have hstep : ∀ (target : Nat) (angle : ℚ) (prevCode : Nat) (pr ok : Bool)
      (rest : List BinPoll),
      binPollLoop target angle prevCode (⟨pr, ok, none⟩ :: rest)
        = binPollLoop target angle prevCode (⟨pr, ok, some prevCode⟩ :: rest) := by
    intro target angle prevCode pr ok rest
    simp [binPollLoop]
  refine ⟨hstep, ?_⟩
  intro pr ok rest
  exact ⟨by simp [dumpCycle, hstep], by simp [resetDumpingCycle, hstep]⟩

/-- Claim C3: a localization run whose iterations are (zero markers,
zero markers, markers found with transform and commit success) issues
exactly one commit call and terminates Succeeded; and if preemption is
requested at the top of an iteration reached through retries that never
touch the commit call, the loop exits Preempted with zero commit
calls. -/
theorem localize_triple_single_commit :
    (∀ z1 z2 g : LocIter, zeroMarkerIter z1 → zeroMarkerIter z2 → successIter g →
       (localize [z1, z2, g]).1.countP isCommitCall = 1
       ∧ (localize [z1, z2, g]).2 = some Outcome.succeeded)
  ∧ (∀ (pre : List LocIter) (p : LocIter) (rest : List LocIter),
       (∀ q ∈ pre, retryNoCommit q) → p.preemptRequested = true →
       (localize (pre ++ p :: rest)).1.countP isCommitCall = 0
       ∧ (localize (pre ++ p :: rest)).2 = some Outcome.preempted) := by
  constructor
  · intro z1 z2 g hz1 hz2 hg
    obtain ⟨t, ht, hgI⟩ := successIter_eval g hg
    have h1 := zeroMarkerIter_eval z1 hz1
    have h2 := zeroMarkerIter_eval z2 hz2
    have e3 : localize [g]
        = ([LocEvent.sendArucoGoal, LocEvent.commitCall (correctedBinPose t g.now)],
           some Outcome.succeeded) := by
      rw [localize_cons_exit g [] Outcome.succeeded (by rw [hgI]), hgI]
    have e2 : localize [z2, g]
        = ((localizeIter z2).1 ++ (localize [g]).1, (localize [g]).2) :=
      localize_cons_retry z2 [g] (by rw [h2])
    have e1 : localize [z1, z2, g]
        = ((localizeIter z1).1 ++ (localize [z2, g]).1, (localize [z2, g]).2) :=
      localize_cons_retry z1 [z2, g] (by rw [h1])
    rw [e1, e2, e3, h1, h2]
    simp [isCommitCall]
  · intro pre
    induction pre with
    | nil =>
      intro p rest _ hp
      have e := localize_cons_exit p rest Outcome.preempted
        (by rw [localizeIter_preempt p hp])
      rw [List.nil_append, e, localizeIter_preempt p hp]
      simp
    | cons q pre ih =>
      intro p rest hpre hp
      have hq := retryNoCommit_eval q (hpre q (by simp))
      have hrest := ih p rest (fun r hr => hpre r (by simp [hr])) hp
      rcases hq with hq | hq
      · have e := localize_cons_retry q (pre ++ p :: rest) (by rw [hq])
        rw [List.cons_append, e, hq]
        simpa [isCommitCall] using hrest
      · have e := localize_cons_retry q (pre ++ p :: rest) (by rw [hq])
        rw [List.cons_append, e, hq]
        simpa [isCommitCall] using hrest

/-- Witness for claim C3: the concrete trace (zero markers, zero
markers, two markers with successful transform and commit) issues
exactly one commit call and ends Succeeded. -/
theorem localize_triple_single_commit_app :
    zeroMarkerIter ⟨false, true, true, some (0, {}), none, 0, false⟩ ∧
    successIter ⟨false, true, true, some (2, {}), some {}, 7, true⟩ ∧
    ((localize [⟨false, true, true, some (0, {}), none, 0, false⟩,
                ⟨false, true, true, some (0, {}), none, 0, false⟩,
                ⟨false, true, true, some (2, {}), some {}, 7, true⟩]).1.countP isCommitCall = 1
     ∧ (localize [⟨false, true, true, some (0, {}), none, 0, false⟩,
                  ⟨false, true, true, some (0, {}), none, 0, false⟩,
                  ⟨false, true, true, some (2, {}), some {}, 7, true⟩]).2
         = some Outcome.succeeded) :=
  ⟨⟨rfl, rfl, rfl, {}, rfl⟩,
   ⟨rfl, rfl, rfl, ⟨2, {}, rfl, by decide⟩, ⟨{}, rfl⟩, rfl⟩,
   localize_triple_single_commit.1
     ⟨false, true, true, some (0, {}), none, 0, false⟩
     ⟨false, true, true, some (0, {}), none, 0, false⟩
     ⟨false, true, true, some (2, {}), some {}, 7, true⟩
     ⟨rfl, rfl, rfl, {}, rfl⟩
     ⟨rfl, rfl, rfl, {}, rfl⟩
     ⟨rfl, rfl, rfl, ⟨2, {}, rfl, by decide⟩, ⟨{}, rfl⟩, rfl⟩⟩

/-- Claim C6: a terminating run of `Localizer::localize` ends in
Succeeded or Preempted — there is no aborted path — and every transient
failure (failed image call, unreachable aruco, zero markers, failed
transform, failed commit) makes the loop retry: the terminal outcome is
that of the remaining iterations. -/
theorem localize_no_aborted_and_transient_retries :
    (∀ (trace : List LocIter) (o : Outcome),
       (localize trace).2 = some o → o = Outcome.succeeded ∨ o = Outcome.preempted)
  ∧ (∀ (i : LocIter) (rest : List LocIter),
       i.preemptRequested = false → i.rosOk = true →
       (i.imageCall = false ∨ i.arucoResult = none ∨
         (∃ pp, i.arucoResult = some (0, pp)) ∨ i.transformResult = none ∨
         i.commitOk = false) →
       (localize (i :: rest)).2 = (localize rest).2) := by
  constructor
  · intro trace
    induction trace with
    | nil => intro o h; simp [localize] at h
    | cons i rest ih =>
      intro o h
      cases hst : (localizeIter i).2 with
      | exit o0 =>
        rw [localize_cons_exit i rest o0 hst] at h
        simp at h
        subst h
        exact localizeIter_exit_outcome i o0 hst
      | retry =>
        rw [localize_cons_retry i rest hst] at h
        exact ih o h
  · intro i rest h1 h2 h3
    rw [localize_cons_retry i rest (localizeIter_retry_of_transient i h1 h2 h3)]

/-- Witness for claim C6: a concrete preempted one-iteration run ends
Preempted, which is among the two allowed outcomes; and a concrete
failed-image iteration leaves the terminal outcome to the rest of the
trace. -/
theorem localize_no_aborted_and_transient_retries_app :
    (localize [⟨true, true, true, none, none, 0, false⟩]).2 = some Outcome.preempted ∧
    (Outcome.preempted = Outcome.succeeded ∨ Outcome.preempted = Outcome.preempted) ∧
    (⟨false, true, false, none, none, 0, false⟩ : LocIter).imageCall = false ∧
    (localize [⟨false, true, false, none, none, 0, false⟩]).2 = (localize []).2 :=
  ⟨rfl,
   localize_no_aborted_and_transient_retries.1
     [⟨true, true, true, none, none, 0, false⟩] Outcome.preempted rfl,
   rfl,
   localize_no_aborted_and_transient_retries.2
     ⟨false, true, false, none, none, 0, false⟩ [] rfl rfl (Or.inl rfl)⟩

/-- Claim C7: a commit (`localize_bin`) call is issued in an iteration
only when the aruco result reported a non-zero marker count and the
frame transform succeeded; whenever either condition fails, the
iteration issues no commit call. -/
theorem commit_requires_markers_and_transform :
    (∀ (i : LocIter) (sp : PoseStamped),
       LocEvent.commitCall sp ∈ (localizeIter i).1 →
       (∃ n pp, i.arucoResult = some (n, pp) ∧ n ≠ 0) ∧
       ∃ t, i.transformResult = some t)
  ∧ (∀ i : LocIter,
       (i.arucoResult = none ∨ (∃ pp, i.arucoResult = some (0, pp)) ∨
         i.transformResult = none) →
       ∀ sp, LocEvent.commitCall sp ∉ (localizeIter i).1) := by
  constructor
  · intro i sp hmem
    obtain ⟨n, pp, t, har, hn, htr, _⟩ := commitCall_mem_localizeIter i sp hmem
    exact ⟨⟨n, pp, har, hn⟩, t, htr⟩
  · intro i hcond sp hmem
    obtain ⟨n, pp, t, har, hn, htr, _⟩ := commitCall_mem_localizeIter i sp hmem
    rcases hcond with h | ⟨pp2, h⟩ | h
    · rw [h] at har
      exact Option.noConfusion har
    · rw [h] at har
      have h2 : (0, pp2) = (n, pp) := Option.some.inj har
      have h3 : (0 : Nat) = n := congrArg Prod.fst h2
      exact hn h3.symm
    · rw [h] at htr
      exact Option.noConfusion htr

/-- Witness for claim C7: the commit issued by a concrete successful
iteration implies its marker count was non-zero and its transform
succeeded; and a concrete zero-marker iteration issues no commit. -/
theorem commit_requires_markers_and_transform_app :
    LocEvent.commitCall (correctedBinPose {} 7)
        ∈ (localizeIter ⟨false, true, true, some (2, {}), some {}, 7, true⟩).1 ∧
    ((∃ n pp, (⟨false, true, true, some (2, {}), some {}, 7, true⟩ : LocIter).arucoResult
        = some (n, pp) ∧ n ≠ 0) ∧
      ∃ t, (⟨false, true, true, some (2, {}), some {}, 7, true⟩ : LocIter).transformResult
        = some t) ∧
    LocEvent.commitCall (correctedBinPose {} 7)
        ∉ (localizeIter ⟨false, true, true, some (0, {}), some {}, 7, true⟩).1 :=
  ⟨by decide,
   commit_requires_markers_and_transform.1
     ⟨false, true, true, some (2, {}), some {}, 7, true⟩
     (correctedBinPose {} 7) (by decide),
   commit_requires_markers_and_transform.2
     ⟨false, true, true, some (0, {}), some {}, 7, true⟩
     (Or.inr (Or.inl ⟨{}, rfl⟩))
     (correctedBinPose {} 7)⟩

/-- Claim C8: the pre-commit correction negates exactly the y and z
position components of the transformed pose, leaves x and the
orientation quaternion unchanged, sets the frame to the destination
frame "odom" and stamps the current time; and every committed pose is
exactly this correction of the iteration's transform result. -/
theorem corrected_pose_flips_y_z_only :
    (∀ (p : Pose) (now : ℚ),
       correctedBinPose p now
         = { frame_id := "odom", stamp := now,
             pose := { position_x := p.position_x
                       position_y := -p.position_y
                       position_z := -p.position_z
                       orientation_x := p.orientation_x
                       orientation_y := p.orientation_y
                       orientation_z := p.orientation_z
                       orientation_w := p.orientation_w } })
  ∧ (∀ (i : LocIter) (sp : PoseStamped),
       LocEvent.commitCall sp ∈ (localizeIter i).1 →
       ∃ t, i.transformResult = some t ∧ sp = correctedBinPose t i.now) := by
  constructor
  · intro p now
    rfl
  · intro i sp hmem
    obtain ⟨n, pp, t, _, _, htr, hsp⟩ := commitCall_mem_localizeIter i sp hmem
    exact ⟨t, htr, hsp⟩

/-- Witness for claim C8: the commit of a concrete successful iteration
carries exactly the corrected, restamped transform result. -/
theorem corrected_pose_flips_y_z_only_app :
    LocEvent.commitCall (correctedBinPose ⟨1, 2, 3, 4, 5, 6, 7⟩ 9)
        ∈ (localizeIter
            ⟨false, true, true, some (2, {}), some ⟨1, 2, 3, 4, 5, 6, 7⟩, 9, true⟩).1 ∧
    (∃ t, (⟨false, true, true, some (2, {}), some ⟨1, 2, 3, 4, 5, 6, 7⟩, 9, true⟩
            : LocIter).transformResult = some t ∧
      correctedBinPose ⟨1, 2, 3, 4, 5, 6, 7⟩ 9
        = correctedBinPose t
            (⟨false, true, true, some (2, {}), some ⟨1, 2, 3, 4, 5, 6, 7⟩, 9, true⟩
              : LocIter).now) :=
  ⟨by decide,
   corrected_pose_flips_y_z_only.2
     ⟨false, true, true, some (2, {}), some ⟨1, 2, 3, 4, 5, 6, 7⟩, 9, true⟩
     (correctedBinPose ⟨1, 2, 3, 4, 5, 6, 7⟩ 9) (by decide)⟩

/-- Claim C9 (the body of `initialize_goal` is modelled from the spec):
goal synthesis is a pure function — two calls with the same Location
Code, Geometry Constraints and reference frame return identical goals —
every supported Location Code yields a goal pose, and an unsupported
Location Code yields an explicit error and never a (default) pose. -/
theorem initialize_goal_deterministic_and_errors :
    (∀ (code : LocationCode) (constraints : GeometryConstraints) (frame : String),
       initialize_goal code constraints frame = initialize_goal code constraints frame)
  ∧ (∀ (code : LocationCode) (constraints : GeometryConstraints) (frame : String),
       code ≠ LocationCode.UNSET →
       ∃ g, initialize_goal code constraints frame = Except.ok g)
  ∧ (∀ (constraints : GeometryConstraints) (frame : String),
       (∃ msg, initialize_goal LocationCode.UNSET constraints frame = Except.error msg)
     ∧ ∀ g, initialize_goal LocationCode.UNSET constraints frame ≠ Except.ok g) := by
  refine ⟨fun _ _ _ => rfl, ?_, ?_⟩
  · intro code constraints frame hcode
    cases code with
    | MINING_SITE => exact ⟨_, rfl⟩
    | BIN => exact ⟨_, rfl⟩
    | FINISH_LINE => exact ⟨_, rfl⟩
    | START => exact ⟨_, rfl⟩
    | UNSET => exact absurd rfl hcode
  · intro constraints frame
    exact ⟨⟨"unsupported location code", rfl⟩, fun g h => Except.noConfusion h⟩

/-- Witness for claim C9: with concrete constraints and frame, the
Mining-Site goal is returned identically twice, and the unsupported code
produces an error. -/
theorem initialize_goal_deterministic_and_errors_app :
    (LocationCode.MINING_SITE ≠ LocationCode.UNSET) ∧
    (∃ g, initialize_goal LocationCode.MINING_SITE ⟨3, 5⟩ "odom" = Except.ok g) ∧
    (∃ msg, initialize_goal LocationCode.UNSET ⟨3, 5⟩ "odom" = Except.error msg) :=
  ⟨by decide,
   initialize_goal_deterministic_and_errors.2.1 LocationCode.MINING_SITE ⟨3, 5⟩ "odom"
     (by decide),
   (initialize_goal_deterministic_and_errors.2.2 ⟨3, 5⟩ "odom").1⟩

end Tfr

